import Mathlib

/-!
Shallow embedding of the application-lifecycle orchestration code of the
runtipi repository, together with proofs about the lifecycle commands and
the app files manager.

The embedding mirrors:
* `src/server/services/app-lifecycle/commands/restart-app-command.ts`
  (`RestartAppCommand.execute` / `RestartAppCommand.sendEvent`);
* the `UninstallAppCommand.execute` method of the backend package;
* `packages/backend/src/modules/apps/app-files-manager.ts` (`AppFilesManager`).

External collaborators (record store, filesystem, container engine, logger)
are modelled as explicit inputs: the record store as a function from app id
to an optional record, the filesystem as a structure of fallible functions,
and each engine invocation outcome as data.  Every observable side effect
(status writes, engine dispatches, log lines, filesystem touches) is
recorded in an explicit event trace so that ordering and absence of side
effects can be stated.
-/

namespace Runtipi

/-! ## App status and records -/

/-- The closed set of app statuses used by the lifecycle commands. -/
inductive AppStatus
  | installing
  | running
  | stopped
  | updating
  | restarting
  | uninstalling
  | errored
deriving DecidableEq, Repr

/-- A persisted app record: its status plus an opaque configuration blob
(the `config` column; `castAppConfig` is the identity on this model). -/
structure AppRecord where
  status : AppStatus
  config : String
deriving DecidableEq, Repr

/-- The app record store (`queries`), keyed by app id. -/
def Store : Type := String → Option AppRecord

/-- `queries.updateApp(appId, { status })`: update the status of the record
with the given id, leaving every other record (and a missing record)
unchanged. -/
def updateAppStatus (store : Store) (appId : String) (st : AppStatus) : Store :=
  fun x => if x = appId then (store x).map (fun r => { r with status := st }) else store x

/-- The error thrown by lifecycle commands (`TranslatedError`): a stable
message key plus the offending app id. -/
structure TranslatedError where
  key : String
  id : String
deriving DecidableEq, Repr

/-- Result of one container-engine dispatch
(`eventDispatcher.dispatchEventAsync`): success flag and captured output. -/
structure DispatchResult where
  success : Bool
  stdout : String
deriving DecidableEq, Repr

/-- Observable side effects of the restart command: record-store reads and
writes, engine dispatches, and error log lines. -/
inductive Event
  | getApp (appId : String)
  | writeStatus (appId : String) (st : AppStatus)
  | dispatchRestart (appId : String) (form : String)
  | logError (msg : String)
deriving DecidableEq, Repr

/-! ## RestartAppCommand
(`src/server/services/app-lifecycle/commands/restart-app-command.ts`) -/

/-- `RestartAppCommand.sendEvent`: await the engine dispatch for
`{ type: 'app', command: 'restart', appid, form }`; on success write status
`running`, on failure log `Failed to restart app {appId}: {stdout}` and
write status `stopped`.  It is total — any engine failure is absorbed into
the status write and the log line, never re-thrown. -/
def RestartAppCommand.sendEvent (store : Store) (appId : String) (form : String)
    (res : DispatchResult) : Store × List Event :=
  if res.success then
    (updateAppStatus store appId .running,
     [Event.dispatchRestart appId form, Event.writeStatus appId .running])
  else
    (updateAppStatus store appId .stopped,
     [Event.dispatchRestart appId form,
      Event.logError ("Failed to restart app " ++ appId ++ ": " ++ res.stdout),
      Event.writeStatus appId .stopped])

/-- Outcome of the synchronous part of `RestartAppCommand.execute`: the
value returned (or error thrown) to the caller, the record store at return
time, the events that already happened, and the pending fire-and-forget
`sendEvent` task (`void this.sendEvent(...)`) carrying the form data —
`none` when no task was scheduled. -/
structure ExecOutcome where
  result : Except TranslatedError Unit
  store : Store
  events : List Event
  pending : Option String

/-- `RestartAppCommand.execute`: look the app up; throw
`APP_ERROR_APP_NOT_FOUND` if absent; otherwise write status `restarting`
and schedule `sendEvent` without awaiting it.  There is no status
precheck of any kind. -/
def RestartAppCommand.execute (store : Store) (appId : String) : ExecOutcome :=
  match store appId with
  | none =>
    { result := Except.error ⟨"APP_ERROR_APP_NOT_FOUND", appId⟩
      store := store
      events := [Event.getApp appId]
      pending := none }
  | some app =>
    { result := Except.ok ()
      store := updateAppStatus store appId .restarting
      events := [Event.getApp appId, Event.writeStatus appId .restarting]
      pending := some app.config }

/-- Outcome of a whole restart request once the background task (if any)
has also completed. -/
structure RunOutcome where
  result : Except TranslatedError Unit
  store : Store
  events : List Event

/-- A whole restart request: the synchronous `execute` followed by the
completion of the scheduled `sendEvent` task with engine result `res`.
The trace concatenates the synchronous events with the background ones. -/
def RestartAppCommand.run (store : Store) (appId : String) (res : DispatchResult) :
    RunOutcome :=
  let ex := RestartAppCommand.execute store appId
  match ex.pending with
  | none => { result := ex.result, store := ex.store, events := ex.events }
  | some form =>
    let (store2, evs2) := RestartAppCommand.sendEvent ex.store appId form res
    { result := ex.result, store := store2, events := ex.events ++ evs2 }

/-! ## UninstallAppCommand (backend package) -/

/-- Result value returned by a backend lifecycle command execution. -/
structure CommandResult where
  success : Bool
  message : String
deriving DecidableEq, Repr

/-- Modelled from the spec: `AppLifecycleCommand.handleAppError` lives in
the base class `command.ts`, which is not among the sources.  Per the spec,
an error raised during uninstall (e.g. a failed local bundle deletion) "is
turned into a failure result by the error handler", so uninstall does not
return success in that case. -/
def handleAppError (err : String) (appId : String) (op : String) : CommandResult :=
  { success := false, message := "Failed to " ++ op ++ " app " ++ appId ++ ": " ++ err }

/-- Outcomes of the external steps taken by `UninstallAppCommand.execute`,
supplied by the collaborators: the base-class `ensureAppDir` preparation
(not among the sources, treated as an external fallible step), the
`docker compose down` invocation, and the two directory deletions. -/
structure UninstallEnv where
  ensureAppDir : Except String Unit
  composeDown : Except String Unit
  deleteAppFolder : Except String Unit
  deleteAppDataDir : Except String Unit

/-- Observable side effects of the uninstall command. -/
inductive UEvent
  | logInfo (msg : String)
  | logWarn (msg : String)
  | composeApp (appId : String) (cmd : String)
  | deleteFolder (appId : String)
  | deleteDataDir (appId : String)
deriving DecidableEq, Repr

/-- The warning logged when the engine-level cleanup fails during
uninstall. -/
def uninstallWarnMsg (appId : String) : String :=
  "Could not fully uninstall app " ++ appId ++
    ". Some images may be in use by other apps or a folder has been deleted. Consider cleaning unused images docker system prune -a"

/-- `UninstallAppCommand.execute`: ensure the app dir, run
`down --remove-orphans --volumes --rmi all` with its failure caught and
only logged as a warning, then delete the app folder and the app data
directory; any error escaping the `try` block is routed through
`handleAppError`. -/
def UninstallAppCommand.execute (env : UninstallEnv) (appId : String) :
    CommandResult × List UEvent :=
  let ev0 := [UEvent.logInfo ("Uninstalling app " ++ appId)]
  match env.ensureAppDir with
  | Except.error e => (handleAppError e appId "uninstall", ev0)
  | Except.ok _ =>
    let composeEvs :=
      [UEvent.composeApp appId "down --remove-orphans --volumes --rmi all"] ++
        match env.composeDown with
        | Except.error _ => [UEvent.logWarn (uninstallWarnMsg appId)]
        | Except.ok _ => []
    let evs1 := ev0 ++ composeEvs ++ [UEvent.deleteFolder appId]
    match env.deleteAppFolder with
    | Except.error e => (handleAppError e appId "uninstall", evs1)
    | Except.ok _ =>
      let evs2 := evs1 ++ [UEvent.deleteDataDir appId]
      match env.deleteAppDataDir with
      | Except.error e => (handleAppError e appId "uninstall", evs2)
      | Except.ok _ =>
        ({ success := true, message := "App " ++ appId ++ " uninstalled successfully" },
         evs2 ++ [UEvent.logInfo ("App " ++ appId ++ " uninstalled")])

/-! ## AppFilesManager
(`packages/backend/src/modules/apps/app-files-manager.ts`)

Every operation is instrumented: alongside its result it returns the list
of filesystem paths it touched (one entry per `pathExists`, read, write,
directory or permission call), so that the claim that all touched paths
are derived from the app id and the configured directories can be stated. -/

/-- `path.join` on the segments that the manager joins (no `..` or empty
segments occur in its calls, so plain `/`-interleaving is faithful). -/
def pathJoin : List String → String
  | [] => ""
  | [p] => p
  | p :: rest => p ++ "/" ++ pathJoin rest

/-- The configured directories (`configuration.getConfig().directories`). -/
structure Directories where
  dataDir : String
  appDataDir : String
deriving DecidableEq, Repr

/-- The configuration consumed by the manager: directories plus the
`architecture` key. -/
structure TipiConfig where
  directories : Directories
  architecture : String
deriving DecidableEq, Repr

/-- The filesystem collaborator (`FilesystemService`), as fallible
functions.  `readTextFile`/`readJsonFile` may throw (`Except.error`) or
return a nullable content (`Except.ok`); `pathExists` is total. -/
structure Fs where
  pathExists : String → Bool
  readTextFile : String → Except String (Option String)
  readJsonFile : String → Except String (Option String)
  writeTextFile : String → String → Except String Unit
  removeDirectory : String → Except String Unit
  createDirectory : String → Except String Unit

/-- The pair of directories computed by `getAppPaths`. -/
structure AppPaths where
  appDataDir : String
  appInstalledDir : String
deriving DecidableEq, Repr

/-- A path together with nullable text content, as returned by
`getDockerComposeYaml`, `getDockerComposeJson`, `getUserEnv` and
`getUserComposeFile`. -/
structure AppFileContent where
  path : String
  content : Option String
deriving DecidableEq, Repr

/-- A path together with (non-null) text content, as returned by
`getAppEnv`. -/
structure AppEnvContent where
  path : String
  content : String
deriving DecidableEq, Repr

/-- Accumulator recursion behind `jsSplit`: gather the current segment in
`acc` (reversed) and emit it at each separator and at the end. -/
def splitCharAux (c : Char) : List Char → List Char → List (List Char)
  | [], acc => [acc.reverse]
  | x :: xs, acc =>
    if x = c then acc.reverse :: splitCharAux c xs []
    else splitCharAux c xs (x :: acc)

/-- JavaScript's `s.split(sep)` for a one-character separator: all
segments between occurrences of the separator, keeping empty segments
(`''.split('_')` is `['']`, `'a__b'.split('_')` is `['a', '', 'b']`). -/
def jsSplit (c : Char) (s : String) : List String :=
  (splitCharAux c s.data []).map String.mk

/-- `getInstalledAppsFolder`: `path.join(directories.dataDir, 'apps')`. -/
def AppFilesManager.getInstalledAppsFolder (cfg : TipiConfig) : String :=
  pathJoin [cfg.directories.dataDir, "apps"]

/-- `getAppPaths`: split the namespaced app id on `_` and destructure the
first two parts as `[store, id]`; if either is missing or empty (falsy),
throw `Invalid namespaced app id`; else compute the app data directory and
the installed-app directory. -/
def AppFilesManager.getAppPaths (cfg : TipiConfig) (namespacedAppId : String) :
    Except String AppPaths :=
  let parts := jsSplit '_' namespacedAppId
  let store := (parts.get? 0).getD ""
  let id := (parts.get? 1).getD ""
  if store = "" ∨ id = "" then
    Except.error ("Invalid namespaced app id: " ++ namespacedAppId)
  else
    Except.ok
      { appDataDir := pathJoin [cfg.directories.appDataDir, store, id]
        appInstalledDir := pathJoin [AppFilesManager.getInstalledAppsFolder cfg, store, id] }

/-- The parsed app config (`appInfoSchema`): its `available` flag plus the
rest of the parsed data, kept opaque. -/
structure AppInfo where
  available : Bool
  data : String
deriving DecidableEq, Repr

/-- `getInstalledAppInfo`: inside a `try` that returns `null` on any error,
read and parse `config.json` and, when it parses and is `available`, read
`metadata/description.md`.  `parse` stands for `JSON.parse` composed with
`appInfoSchema.safeParse` (both failure modes end with no value). -/
def AppFilesManager.getInstalledAppInfo (cfg : TipiConfig) (fs : Fs)
    (parse : String → Option AppInfo) (id : String) :
    Option (AppInfo × String) × List String :=
  match AppFilesManager.getAppPaths cfg id with
  | Except.error _ => (none, [])
  | Except.ok paths =>
    let configPath := pathJoin [paths.appInstalledDir, "config.json"]
    if fs.pathExists configPath then
      match fs.readTextFile configPath with
      | Except.error _ => (none, [configPath, configPath])
      | Except.ok c =>
        match parse (c.getD "") with
        | none => (none, [configPath, configPath])
        | some info =>
          if info.available then
            let descPath := pathJoin [paths.appInstalledDir, "metadata", "description.md"]
            match fs.readTextFile descPath with
            | Except.error _ => (none, [configPath, configPath, descPath])
            | Except.ok d => (some (info, d.getD ""), [configPath, configPath, descPath])
          else (none, [configPath, configPath])
    else (none, [configPath])

/-- `getDockerComposeYaml`: choose `docker-compose.arm64.yml` exactly when
the architecture is `arm64` and that file exists (the existence check only
runs on arm64, short-circuit `&&`); read the chosen file if it exists,
with a read failure caught, logged and leaving the content `null`. -/
def AppFilesManager.getDockerComposeYaml (cfg : TipiConfig) (fs : Fs) (id : String) :
    Except String AppFileContent × List String :=
  match AppFilesManager.getAppPaths cfg id with
  | Except.error e => (Except.error e, [])
  | Except.ok paths =>
    let basePath := pathJoin [paths.appInstalledDir, "docker-compose.yml"]
    let armPath := pathJoin [paths.appInstalledDir, "docker-compose.arm64.yml"]
    let archTouched := if cfg.architecture = "arm64" then [armPath] else []
    let dockerComposePath :=
      if cfg.architecture = "arm64" ∧ fs.pathExists armPath then armPath else basePath
    if fs.pathExists dockerComposePath then
      match fs.readTextFile dockerComposePath with
      | Except.error _ =>
        (Except.ok { path := dockerComposePath, content := none },
         archTouched ++ [dockerComposePath, dockerComposePath])
      | Except.ok c =>
        (Except.ok { path := dockerComposePath, content := c },
         archTouched ++ [dockerComposePath, dockerComposePath])
    else
      (Except.ok { path := dockerComposePath, content := none },
       archTouched ++ [dockerComposePath])

/-- `getDockerComposeJson`: read `docker-compose.json` if it exists, a read
failure being caught, logged and leaving the content `null`. -/
def AppFilesManager.getDockerComposeJson (cfg : TipiConfig) (fs : Fs) (id : String) :
    Except String AppFileContent × List String :=
  match AppFilesManager.getAppPaths cfg id with
  | Except.error e => (Except.error e, [])
  | Except.ok paths =>
    let p := pathJoin [paths.appInstalledDir, "docker-compose.json"]
    if fs.pathExists p then
      match fs.readJsonFile p with
      | Except.error _ => (Except.ok { path := p, content := none }, [p, p])
      | Except.ok c => (Except.ok { path := p, content := c }, [p, p])
    else (Except.ok { path := p, content := none }, [p])

/-- `writeDockerComposeYml`: write the given content to
`docker-compose.yml` inside the installed-app directory. -/
def AppFilesManager.writeDockerComposeYml (cfg : TipiConfig) (fs : Fs)
    (appId : String) (composeFile : String) : Except String Unit × List String :=
  match AppFilesManager.getAppPaths cfg appId with
  | Except.error e => (Except.error e, [])
  | Except.ok paths =>
    let p := pathJoin [paths.appInstalledDir, "docker-compose.yml"]
    (fs.writeTextFile p composeFile, [p])

/-- `deleteAppFolder`: remove the installed-app directory. -/
def AppFilesManager.deleteAppFolder (cfg : TipiConfig) (fs : Fs) (appId : String) :
    Except String Unit × List String :=
  match AppFilesManager.getAppPaths cfg appId with
  | Except.error e => (Except.error e, [])
  | Except.ok paths => (fs.removeDirectory paths.appInstalledDir, [paths.appInstalledDir])

/-- `deleteAppDataDir`: remove the app data directory. -/
def AppFilesManager.deleteAppDataDir (cfg : TipiConfig) (fs : Fs) (appId : String) :
    Except String Unit × List String :=
  match AppFilesManager.getAppPaths cfg appId with
  | Except.error e => (Except.error e, [])
  | Except.ok paths => (fs.removeDirectory paths.appDataDir, [paths.appDataDir])

/-- `createAppDataDir`: create the app data directory. -/
def AppFilesManager.createAppDataDir (cfg : TipiConfig) (fs : Fs) (appId : String) :
    Except String Unit × List String :=
  match AppFilesManager.getAppPaths cfg appId with
  | Except.error e => (Except.error e, [])
  | Except.ok paths => (fs.createDirectory paths.appDataDir, [paths.appDataDir])

/-- `setAppDataDirPermissions`: run `chmod -Rf a+rwx` on the app data
directory; any failure of the shell invocation is caught and only logged,
so past the path computation the operation always succeeds. -/
def AppFilesManager.setAppDataDirPermissions (cfg : TipiConfig) (appId : String) :
    Except String Unit × List String :=
  match AppFilesManager.getAppPaths cfg appId with
  | Except.error e => (Except.error e, [])
  | Except.ok paths => (Except.ok (), [paths.appDataDir])

/-- `getAppEnv`: the per-app env file `app.env` inside the app data
directory; content starts as `''` and stays `''` when the file does not
exist (the `??`-default also maps a null read result to `''`).  There is no
`try` here, so a throwing read propagates. -/
def AppFilesManager.getAppEnv (cfg : TipiConfig) (fs : Fs) (appId : String) :
    Except String AppEnvContent × List String :=
  match AppFilesManager.getAppPaths cfg appId with
  | Except.error e => (Except.error e, [])
  | Except.ok paths =>
    let envPath := pathJoin [paths.appDataDir, "app.env"]
    if fs.pathExists envPath then
      match fs.readTextFile envPath with
      | Except.error e => (Except.error e, [envPath, envPath])
      | Except.ok c =>
        (Except.ok { path := envPath, content := c.getD "" }, [envPath, envPath])
    else (Except.ok { path := envPath, content := "" }, [envPath])

/-- `writeAppEnv`: write the given env content to `app.env` inside the app
data directory. -/
def AppFilesManager.writeAppEnv (cfg : TipiConfig) (fs : Fs) (appId : String)
    (env : String) : Except String Unit × List String :=
  match AppFilesManager.getAppPaths cfg appId with
  | Except.error e => (Except.error e, [])
  | Except.ok paths =>
    let envPath := pathJoin [paths.appDataDir, "app.env"]
    (fs.writeTextFile envPath env, [envPath])

/-- `getUserEnv`: the user-config env file
`dataDir/user-config/{appId}/app.env`; content is `null` when the file
does not exist.  This operation does not go through `getAppPaths`. -/
def AppFilesManager.getUserEnv (cfg : TipiConfig) (fs : Fs) (appId : String) :
    Except String AppFileContent × List String :=
  let userEnvFile := pathJoin [cfg.directories.dataDir, "user-config", appId, "app.env"]
  if fs.pathExists userEnvFile then
    match fs.readTextFile userEnvFile with
    | Except.error e => (Except.error e, [userEnvFile, userEnvFile])
    | Except.ok c => (Except.ok { path := userEnvFile, content := c }, [userEnvFile, userEnvFile])
  else (Except.ok { path := userEnvFile, content := none }, [userEnvFile])

/-- `getUserComposeFile`: the user-config compose file
`dataDir/user-config/{appId}/docker-compose.yml`; content is `null` when
the file does not exist.  This operation does not go through
`getAppPaths`. -/
def AppFilesManager.getUserComposeFile (cfg : TipiConfig) (fs : Fs) (appId : String) :
    Except String AppFileContent × List String :=
  let userComposeFile :=
    pathJoin [cfg.directories.dataDir, "user-config", appId, "docker-compose.yml"]
  if fs.pathExists userComposeFile then
    match fs.readTextFile userComposeFile with
    | Except.error e => (Except.error e, [userComposeFile, userComposeFile])
    | Except.ok c =>
      (Except.ok { path := userComposeFile, content := c }, [userComposeFile, userComposeFile])
  else (Except.ok { path := userComposeFile, content := none }, [userComposeFile])

/-- The candidate filesystem paths of an app id under a fixed
configuration: every path any `AppFilesManager` operation may touch, as a
function of the configuration and the app id alone (no filesystem state,
no caller-supplied path). -/
def AppFilesManager.candidatePaths (cfg : TipiConfig) (appId : String) : List String :=
  (match AppFilesManager.getAppPaths cfg appId with
   | Except.error _ => []
   | Except.ok paths =>
     [paths.appDataDir, paths.appInstalledDir,
      pathJoin [paths.appInstalledDir, "config.json"],
      pathJoin [paths.appInstalledDir, "metadata", "description.md"],
      pathJoin [paths.appInstalledDir, "docker-compose.yml"],
      pathJoin [paths.appInstalledDir, "docker-compose.arm64.yml"],
      pathJoin [paths.appInstalledDir, "docker-compose.json"],
      pathJoin [paths.appDataDir, "app.env"]]) ++
  [pathJoin [cfg.directories.dataDir, "user-config", appId, "app.env"],
   pathJoin [cfg.directories.dataDir, "user-config", appId, "docker-compose.yml"]]

/-- The side condition of the namespaced-id claim, following its words:
the id splits on the FIRST underscore into two non-empty parts.  The part
before the first underscore is the head of the underscore-split, and the
part after it is the remaining split segments joined back with
underscores (`joinUnderscore`). -/
def joinUnderscore : List String → String
  | [] => ""
  | [a] => a
  | a :: rest => a ++ "_" ++ joinUnderscore rest

/-- `splitsOnFirstUnderscore s` is true when `s` splits on its first
underscore into two non-empty parts. -/
def splitsOnFirstUnderscore (s : String) : Bool :=
  match jsSplit '_' s with
  | store :: rest :: more => decide (store ≠ "" ∧ joinUnderscore (rest :: more) ≠ "")
  | _ => false

/-! ## Concrete instances used by witnesses and counterexamples -/

/-- A store holding one app `a1` caught in the transitional status
`installing`. -/
def store0 : Store :=
  fun x => if x = "a1" then some { status := .installing, config := "cfg" } else none

/-- A store holding one app `photos` in status `running`. -/
def storeRun : Store :=
  fun x => if x = "photos" then some { status := .running, config := "pc" } else none

/-- The empty record store. -/
def storeEmpty : Store := fun _ => none

/-- An amd64 configuration. -/
def cfg0 : TipiConfig :=
  { directories := { dataDir := "/data", appDataDir := "/app-data" }, architecture := "amd64" }

/-- An arm64 configuration. -/
def cfgArm : TipiConfig :=
  { directories := { dataDir := "/data", appDataDir := "/app-data" }, architecture := "arm64" }

/-- A filesystem on which every path exists and every read yields `X`. -/
def fsAll : Fs :=
  { pathExists := fun _ => true
    readTextFile := fun _ => Except.ok (some "X")
    readJsonFile := fun _ => Except.ok (some "J")
    writeTextFile := fun _ _ => Except.ok ()
    removeDirectory := fun _ => Except.ok ()
    createDirectory := fun _ => Except.ok () }

/-- A filesystem on which no path exists and every read throws. -/
def fsNone : Fs :=
  { pathExists := fun _ => false
    readTextFile := fun _ => Except.error "ENOENT"
    readJsonFile := fun _ => Except.error "ENOENT"
    writeTextFile := fun _ _ => Except.ok ()
    removeDirectory := fun _ => Except.ok ()
    createDirectory := fun _ => Except.ok () }

/-- Uninstall collaborators where only the engine-level `down` fails. -/
def envDownFail : UninstallEnv :=
  { ensureAppDir := Except.ok ()
    composeDown := Except.error "exit 1"
    deleteAppFolder := Except.ok ()
    deleteAppDataDir := Except.ok () }

/-- Uninstall collaborators where deleting the local app folder fails. -/
def envFolderFail : UninstallEnv :=
  { ensureAppDir := Except.ok ()
    composeDown := Except.ok ()
    deleteAppFolder := Except.error "EACCES"
    deleteAppDataDir := Except.ok () }

/-! ## Helper lemmas -/

/-- Joining two or more segments with underscores never yields the empty
string. -/
theorem joinUnderscore_ne_empty (a b : String) (l : List String) :
    joinUnderscore (a :: b :: l) ≠ "" := by
  have he : joinUnderscore (a :: b :: l) = a ++ "_" ++ joinUnderscore (b :: l) := by
    simp [joinUnderscore]
  have hu : ("_" : String).length = 1 := rfl
  intro h
  rw [h] at he
  have hlen := congrArg String.length he
  rw [String.length_append, String.length_append] at hlen
  simp at hlen
  omega

/-- An id that does not split on its first underscore into two non-empty
parts makes `getAppPaths` throw the invalid-namespaced-app-id error. -/
theorem getAppPaths_error_of_not_split (cfg : TipiConfig) (id : String)
    (h : splitsOnFirstUnderscore id = false) :
    AppFilesManager.getAppPaths cfg id =
      Except.error ("Invalid namespaced app id: " ++ id) := by
  unfold AppFilesManager.getAppPaths
  unfold splitsOnFirstUnderscore at h
  rcases hsp : jsSplit '_' id with _ | ⟨a, _ | ⟨b, more⟩⟩
  · simp [hsp]
  · simp [hsp]
  · rw [hsp] at h
    simp only [decide_eq_false_iff_not, not_and_or, not_not] at h
    rcases h with h | h
    · simp [hsp, h]
    · rcases more with _ | ⟨c, more2⟩
      · simp only [joinUnderscore] at h
        simp [hsp, h]
      · exact absurd h (joinUnderscore_ne_empty b c more2)

/-! ## Claim theorems -/

/-- C1 (counterexample): the claim that a restart request for an app whose
status is neither `running` nor `stopped` is rejected with
`InvalidTransition`, leaves the status untouched and dispatches nothing is
false.  Concretely, for app `a1` whose current status is the transitional
value `installing`, `RestartAppCommand.execute` succeeds (no error of any
kind is thrown), the status is overwritten to `restarting`, and the whole
run dispatches a restart to the engine. -/
theorem c1_restart_precheck_counterexample :
    store0 "a1" = some { status := AppStatus.installing, config := "cfg" } ∧
    (RestartAppCommand.execute store0 "a1").result = Except.ok () ∧
    (RestartAppCommand.execute store0 "a1").store "a1" =
      some { status := AppStatus.restarting, config := "cfg" } ∧
    Event.dispatchRestart "a1" "cfg" ∈
      (RestartAppCommand.run store0 "a1" { success := true, stdout := "" }).events := by
  refine ⟨by decide, rfl, by decide, by decide⟩

/-- C1 (amended): the restart command performs no status precheck at all.
For every record store, every app id whose record exists — whatever its
current status, including transitional ones — `execute` succeeds, the
status is overwritten to `restarting`, and the run dispatches a restart to
the engine.  Only a missing record is rejected (with `AppNotFound`, never
`InvalidTransition`). -/
theorem c1_restart_accepts_any_existing_status (store : Store) (appId : String)
    (r : AppRecord) (h : store appId = some r) (res : DispatchResult) :
    (RestartAppCommand.execute store appId).result = Except.ok () ∧
    (RestartAppCommand.execute store appId).store appId =
      some { r with status := AppStatus.restarting } ∧
    Event.dispatchRestart appId r.config ∈ (RestartAppCommand.run store appId res).events := by
  refine ⟨?_, ?_, ?_⟩
  · simp [RestartAppCommand.execute, h]
  · simp [RestartAppCommand.execute, h, updateAppStatus]
  · rcases res with ⟨s, out⟩
    cases s <;>
      simp [RestartAppCommand.run, RestartAppCommand.execute, RestartAppCommand.sendEvent, h]

/-- C1 (witness): the amended theorem applied to the store holding `a1` in
status `installing`. -/
theorem c1_restart_accepts_any_existing_status_witness :
    store0 "a1" = some { status := AppStatus.installing, config := "cfg" } ∧
    ((RestartAppCommand.execute store0 "a1").result = Except.ok () ∧
     (RestartAppCommand.execute store0 "a1").store "a1" =
       some { status := AppStatus.restarting, config := "cfg" } ∧
     Event.dispatchRestart "a1" "cfg" ∈
       (RestartAppCommand.run store0 "a1" { success := false, stdout := "oops" }).events) :=
  ⟨by decide,
   c1_restart_accepts_any_existing_status store0 "a1"
     { status := AppStatus.installing, config := "cfg" } (by decide)
     { success := false, stdout := "oops" }⟩

/-- C2: after the restart finalize step (`sendEvent`) runs, the record's
status is `running` when the dispatch succeeded and `stopped` when it
failed; in the failure case the captured output is logged; the status is
never left at the transitional value `restarting`; and the whole run still
returns success to the caller (the engine failure is not re-raised). -/
theorem c2_restart_finalize_terminal (store : Store) (appId form : String)
    (r : AppRecord) (res : DispatchResult) (h : store appId = some r) :
    ((RestartAppCommand.sendEvent store appId form res).1 appId =
      some { r with status := if res.success then AppStatus.running else AppStatus.stopped }) ∧
    (∀ rec : AppRecord, (RestartAppCommand.sendEvent store appId form res).1 appId = some rec →
      rec.status ≠ AppStatus.restarting) ∧
    (res.success = false →
      Event.logError ("Failed to restart app " ++ appId ++ ": " ++ res.stdout) ∈
        (RestartAppCommand.sendEvent store appId form res).2) ∧
    (RestartAppCommand.run store appId res).result = Except.ok () := by
  rcases res with ⟨s, out⟩
  cases s
  · refine ⟨?_, ?_, ?_, ?_⟩
    · simp [RestartAppCommand.sendEvent, updateAppStatus, h]
    · intro rec hrec
      simp [RestartAppCommand.sendEvent, updateAppStatus, h] at hrec
      rw [← hrec]
      simp
    · intro _
      simp [RestartAppCommand.sendEvent]
    · simp [RestartAppCommand.run, RestartAppCommand.execute, RestartAppCommand.sendEvent, h]
  · refine ⟨?_, ?_, ?_, ?_⟩
    · simp [RestartAppCommand.sendEvent, updateAppStatus, h]
    · intro rec hrec
      simp [RestartAppCommand.sendEvent, updateAppStatus, h] at hrec
      rw [← hrec]
      simp
    · intro hfalse
      simp at hfalse
    · simp [RestartAppCommand.run, RestartAppCommand.execute, RestartAppCommand.sendEvent, h]

/-- C2 (witness): the finalize theorem applied to app `photos` in status
`running` with a failing dispatch carrying output `boom`. -/
theorem c2_restart_finalize_terminal_witness :
    storeRun "photos" = some { status := AppStatus.running, config := "pc" } ∧
    (((RestartAppCommand.sendEvent storeRun "photos" "pc"
        { success := false, stdout := "boom" }).1 "photos" =
      some { status := AppStatus.stopped, config := "pc" }) ∧
     (∀ rec : AppRecord, (RestartAppCommand.sendEvent storeRun "photos" "pc"
        { success := false, stdout := "boom" }).1 "photos" = some rec →
       rec.status ≠ AppStatus.restarting) ∧
     ((false : Bool) = false →
       Event.logError ("Failed to restart app " ++ "photos" ++ ": " ++ "boom") ∈
         (RestartAppCommand.sendEvent storeRun "photos" "pc"
           { success := false, stdout := "boom" }).2) ∧
     (RestartAppCommand.run storeRun "photos" { success := false, stdout := "boom" }).result =
       Except.ok ()) :=
  ⟨by decide,
   c2_restart_finalize_terminal storeRun "photos" "pc"
     { status := AppStatus.running, config := "pc" }
     { success := false, stdout := "boom" } (by decide)⟩

/-- C3: the restart command writes the transitional status `restarting`
before any dispatch: at the synchronous return point of `execute` the
store already holds `restarting` and no dispatch or terminal write has
happened yet, and in the full run the trace places the `restarting` write
strictly before the engine dispatch and the terminal write strictly after
the dispatch returns. -/
theorem c3_restart_transitional_then_terminal (store : Store) (appId : String)
    (r : AppRecord) (res : DispatchResult) (h : store appId = some r) :
    (RestartAppCommand.execute store appId).store appId =
      some { r with status := AppStatus.restarting } ∧
    (RestartAppCommand.execute store appId).events =
      [Event.getApp appId, Event.writeStatus appId AppStatus.restarting] ∧
    (RestartAppCommand.run store appId res).events =
      [Event.getApp appId, Event.writeStatus appId AppStatus.restarting,
       Event.dispatchRestart appId r.config] ++
      (if res.success then [] else
        [Event.logError ("Failed to restart app " ++ appId ++ ": " ++ res.stdout)]) ++
      [Event.writeStatus appId (if res.success then AppStatus.running else AppStatus.stopped)] := by
  refine ⟨?_, ?_, ?_⟩
  · simp [RestartAppCommand.execute, h, updateAppStatus]
  · simp [RestartAppCommand.execute, h]
  · rcases res with ⟨s, out⟩
    cases s <;>
      simp [RestartAppCommand.run, RestartAppCommand.execute, RestartAppCommand.sendEvent, h]

/-- C3 (witness): the transitional-then-terminal theorem applied to app
`photos` in status `running` with a successful dispatch. -/
theorem c3_restart_transitional_then_terminal_witness :
    storeRun "photos" = some { status := AppStatus.running, config := "pc" } ∧
    ((RestartAppCommand.execute storeRun "photos").store "photos" =
       some { status := AppStatus.restarting, config := "pc" } ∧
     (RestartAppCommand.execute storeRun "photos").events =
       [Event.getApp "photos", Event.writeStatus "photos" AppStatus.restarting] ∧
     (RestartAppCommand.run storeRun "photos" { success := true, stdout := "" }).events =
       [Event.getApp "photos", Event.writeStatus "photos" AppStatus.restarting,
        Event.dispatchRestart "photos" "pc"] ++
       (if (true : Bool) then [] else
         [Event.logError ("Failed to restart app " ++ "photos" ++ ": " ++ "")]) ++
       [Event.writeStatus "photos" (if (true : Bool) then AppStatus.running else AppStatus.stopped)]) :=
  ⟨by decide,
   c3_restart_transitional_then_terminal storeRun "photos"
     { status := AppStatus.running, config := "pc" }
     { success := true, stdout := "" } (by decide)⟩

/-- C4: for an app id with no record, `execute` throws
`APP_ERROR_APP_NOT_FOUND`, the store is returned unchanged, and the whole
run performs no status write and no engine dispatch — its only event is
the failed lookup. -/
theorem c4_restart_app_not_found (store : Store) (appId : String)
    (res : DispatchResult) (h : store appId = none) :
    (RestartAppCommand.execute store appId).result =
      Except.error { key := "APP_ERROR_APP_NOT_FOUND", id := appId } ∧
    (RestartAppCommand.execute store appId).store = store ∧
    (RestartAppCommand.run store appId res).events = [Event.getApp appId] ∧
    (∀ st, Event.writeStatus appId st ∉ (RestartAppCommand.run store appId res).events) ∧
    (∀ form, Event.dispatchRestart appId form ∉ (RestartAppCommand.run store appId res).events) := by
  refine ⟨?_, ?_, ?_, ?_, ?_⟩ <;>
    simp [RestartAppCommand.execute, RestartAppCommand.run, h]

/-- C4 (witness): the app-not-found theorem applied to the empty store. -/
theorem c4_restart_app_not_found_witness :
    storeEmpty "ghost" = none ∧
    ((RestartAppCommand.execute storeEmpty "ghost").result =
       Except.error { key := "APP_ERROR_APP_NOT_FOUND", id := "ghost" } ∧
     (RestartAppCommand.execute storeEmpty "ghost").store = storeEmpty ∧
     (RestartAppCommand.run storeEmpty "ghost" { success := true, stdout := "" }).events =
       [Event.getApp "ghost"] ∧
     (∀ st, Event.writeStatus "ghost" st ∉
       (RestartAppCommand.run storeEmpty "ghost" { success := true, stdout := "" }).events) ∧
     (∀ form, Event.dispatchRestart "ghost" form ∉
       (RestartAppCommand.run storeEmpty "ghost" { success := true, stdout := "" }).events)) :=
  ⟨rfl,
   c4_restart_app_not_found storeEmpty "ghost" { success := true, stdout := "" } rfl⟩

/-- C5: when the engine-level `down --remove-orphans --volumes --rmi all`
fails during uninstall (and the local deletions succeed), the failure is
only logged as a warning: the local app folder and the app data directory
are still deleted and the command still returns success. -/
theorem c5_uninstall_engine_failure_best_effort (env : UninstallEnv) (appId e : String)
    (h1 : env.ensureAppDir = Except.ok ()) (h2 : env.composeDown = Except.error e)
    (h3 : env.deleteAppFolder = Except.ok ()) (h4 : env.deleteAppDataDir = Except.ok ()) :
    (UninstallAppCommand.execute env appId).1 =
      { success := true, message := "App " ++ appId ++ " uninstalled successfully" } ∧
    UEvent.logWarn (uninstallWarnMsg appId) ∈ (UninstallAppCommand.execute env appId).2 ∧
    UEvent.deleteFolder appId ∈ (UninstallAppCommand.execute env appId).2 ∧
    UEvent.deleteDataDir appId ∈ (UninstallAppCommand.execute env appId).2 := by
  refine ⟨?_, ?_, ?_, ?_⟩ <;>
    simp [UninstallAppCommand.execute, h1, h2, h3, h4]

/-- C5 (witness): the best-effort theorem applied to collaborators where
only the engine `down` fails. -/
theorem c5_uninstall_engine_failure_best_effort_witness :
    envDownFail.ensureAppDir = Except.ok () ∧
    envDownFail.composeDown = Except.error "exit 1" ∧
    envDownFail.deleteAppFolder = Except.ok () ∧
    envDownFail.deleteAppDataDir = Except.ok () ∧
    ((UninstallAppCommand.execute envDownFail "app1").1 =
       { success := true, message := "App " ++ "app1" ++ " uninstalled successfully" } ∧
     UEvent.logWarn (uninstallWarnMsg "app1") ∈ (UninstallAppCommand.execute envDownFail "app1").2 ∧
     UEvent.deleteFolder "app1" ∈ (UninstallAppCommand.execute envDownFail "app1").2 ∧
     UEvent.deleteDataDir "app1" ∈ (UninstallAppCommand.execute envDownFail "app1").2) :=
  ⟨rfl, rfl, rfl, rfl,
   c5_uninstall_engine_failure_best_effort envDownFail "app1" "exit 1" rfl rfl rfl rfl⟩

/-- C6: when deleting the local app folder or the app data directory fails
during uninstall, the raised error escapes the happy path and is turned
into a failure result by the error handler — the command does not return
success. -/
theorem c6_uninstall_local_deletion_failure (env : UninstallEnv) (appId e : String)
    (h1 : env.ensureAppDir = Except.ok ())
    (h : env.deleteAppFolder = Except.error e ∨
      (env.deleteAppFolder = Except.ok () ∧ env.deleteAppDataDir = Except.error e)) :
    (UninstallAppCommand.execute env appId).1 = handleAppError e appId "uninstall" ∧
    (UninstallAppCommand.execute env appId).1.success = false := by
  rcases h with h | ⟨hok, herr⟩
  · constructor <;> simp [UninstallAppCommand.execute, handleAppError, h1, h]
  · constructor <;> simp [UninstallAppCommand.execute, handleAppError, h1, hok, herr]

/-- C6 (witness): the local-deletion-failure theorem applied to
collaborators where removing the app folder fails with `EACCES`. -/
theorem c6_uninstall_local_deletion_failure_witness :
    envFolderFail.ensureAppDir = Except.ok () ∧
    envFolderFail.deleteAppFolder = Except.error "EACCES" ∧
    ((UninstallAppCommand.execute envFolderFail "app1").1 =
       handleAppError "EACCES" "app1" "uninstall" ∧
     (UninstallAppCommand.execute envFolderFail "app1").1.success = false) :=
  ⟨rfl, rfl,
   c6_uninstall_local_deletion_failure envFolderFail "app1" "EACCES" rfl (Or.inl rfl)⟩

/-- C7: every `AppFilesManager` operation only touches filesystem paths
drawn from `candidatePaths cfg appId`, a list computed from the
configuration and the app id alone — no operation reads or writes a raw
path supplied by the caller, and for a fixed configuration the paths
touched are a function of the app id (the filesystem state and the parser
only select among the candidates). -/
theorem c7_all_paths_from_app_id (cfg : TipiConfig) (fs : Fs)
    (parse : String → Option AppInfo) (appId composeFile envContent : String) :
    (AppFilesManager.getInstalledAppInfo cfg fs parse appId).2 ⊆
      AppFilesManager.candidatePaths cfg appId ∧
    (AppFilesManager.getDockerComposeYaml cfg fs appId).2 ⊆
      AppFilesManager.candidatePaths cfg appId ∧
    (AppFilesManager.getDockerComposeJson cfg fs appId).2 ⊆
      AppFilesManager.candidatePaths cfg appId ∧
    (AppFilesManager.writeDockerComposeYml cfg fs appId composeFile).2 ⊆
      AppFilesManager.candidatePaths cfg appId ∧
    (AppFilesManager.deleteAppFolder cfg fs appId).2 ⊆
      AppFilesManager.candidatePaths cfg appId ∧
    (AppFilesManager.deleteAppDataDir cfg fs appId).2 ⊆
      AppFilesManager.candidatePaths cfg appId ∧
    (AppFilesManager.createAppDataDir cfg fs appId).2 ⊆
      AppFilesManager.candidatePaths cfg appId ∧
    (AppFilesManager.setAppDataDirPermissions cfg appId).2 ⊆
      AppFilesManager.candidatePaths cfg appId ∧
    (AppFilesManager.getAppEnv cfg fs appId).2 ⊆
      AppFilesManager.candidatePaths cfg appId ∧
    (AppFilesManager.writeAppEnv cfg fs appId envContent).2 ⊆
      AppFilesManager.candidatePaths cfg appId ∧
    (AppFilesManager.getUserEnv cfg fs appId).2 ⊆
      AppFilesManager.candidatePaths cfg appId ∧
    (AppFilesManager.getUserComposeFile cfg fs appId).2 ⊆
      AppFilesManager.candidatePaths cfg appId := by
  rcases hga : AppFilesManager.getAppPaths cfg appId with e | paths <;>
    refine ⟨?_, ?_, ?_, ?_, ?_, ?_, ?_, ?_, ?_, ?_, ?_, ?_⟩ <;>
    · simp only [AppFilesManager.getInstalledAppInfo, AppFilesManager.getDockerComposeYaml,
        AppFilesManager.getDockerComposeJson, AppFilesManager.writeDockerComposeYml,
        AppFilesManager.deleteAppFolder, AppFilesManager.deleteAppDataDir,
        AppFilesManager.createAppDataDir, AppFilesManager.setAppDataDirPermissions,
        AppFilesManager.getAppEnv, AppFilesManager.writeAppEnv, AppFilesManager.getUserEnv,
        AppFilesManager.getUserComposeFile, AppFilesManager.candidatePaths, hga]
      repeat' split
      all_goals simp

/-- C8 (counterexample): the claim that EVERY `AppFilesManager` operation
taking an app id fails before touching the filesystem when the id does not
split on its first underscore into two non-empty parts is false.  The id
`abc` has no underscore, and `getAppPaths` does throw on it — but
`getUserEnv` does not go through `getAppPaths`: on `abc` it succeeds,
reads `dataDir/user-config/abc/app.env`, and touches the filesystem. -/
theorem c8_user_env_counterexample :
    splitsOnFirstUnderscore "abc" = false ∧
    AppFilesManager.getAppPaths cfg0 "abc" =
      Except.error "Invalid namespaced app id: abc" ∧
    (AppFilesManager.getUserEnv cfg0 fsAll "abc").1 =
      Except.ok { path := "/data/user-config/abc/app.env", content := some "X" } ∧
    (AppFilesManager.getUserEnv cfg0 fsAll "abc").2 ≠ [] := by
  refine ⟨by decide, rfl, rfl, by decide⟩

/-- C8 (amended): for every app id that does not split on its first
underscore into two non-empty parts, `getAppPaths` throws the
invalid-namespaced-app-id error, and every operation that resolves its
paths through `getAppPaths` without catching the error — all of them
except `getInstalledAppInfo` (which catches it and yields no value) and
the user-config readers `getUserEnv`/`getUserComposeFile` (which do not
namespace the id) — fails with that error before touching the filesystem
(its touched-path list is empty). -/
theorem c8_invalid_id_fails_before_fs (cfg : TipiConfig) (fs : Fs)
    (id composeFile envContent : String)
    (h : splitsOnFirstUnderscore id = false) :
    AppFilesManager.getAppPaths cfg id =
      Except.error ("Invalid namespaced app id: " ++ id) ∧
    AppFilesManager.getDockerComposeYaml cfg fs id =
      (Except.error ("Invalid namespaced app id: " ++ id), []) ∧
    AppFilesManager.getDockerComposeJson cfg fs id =
      (Except.error ("Invalid namespaced app id: " ++ id), []) ∧
    AppFilesManager.writeDockerComposeYml cfg fs id composeFile =
      (Except.error ("Invalid namespaced app id: " ++ id), []) ∧
    AppFilesManager.deleteAppFolder cfg fs id =
      (Except.error ("Invalid namespaced app id: " ++ id), []) ∧
    AppFilesManager.deleteAppDataDir cfg fs id =
      (Except.error ("Invalid namespaced app id: " ++ id), []) ∧
    AppFilesManager.createAppDataDir cfg fs id =
      (Except.error ("Invalid namespaced app id: " ++ id), []) ∧
    AppFilesManager.setAppDataDirPermissions cfg id =
      (Except.error ("Invalid namespaced app id: " ++ id), []) ∧
    AppFilesManager.getAppEnv cfg fs id =
      (Except.error ("Invalid namespaced app id: " ++ id), []) ∧
    AppFilesManager.writeAppEnv cfg fs id envContent =
      (Except.error ("Invalid namespaced app id: " ++ id), []) := by
  have hge := getAppPaths_error_of_not_split cfg id h
  refine ⟨hge, ?_, ?_, ?_, ?_, ?_, ?_, ?_, ?_, ?_⟩ <;>
    simp [AppFilesManager.getDockerComposeYaml, AppFilesManager.getDockerComposeJson,
      AppFilesManager.writeDockerComposeYml, AppFilesManager.deleteAppFolder,
      AppFilesManager.deleteAppDataDir, AppFilesManager.createAppDataDir,
      AppFilesManager.setAppDataDirPermissions, AppFilesManager.getAppEnv,
      AppFilesManager.writeAppEnv, hge]

/-- C8 (witness): the amended theorem applied to the underscore-free id
`abc` under the amd64 configuration and the everything-exists
filesystem. -/
theorem c8_invalid_id_fails_before_fs_witness :
    splitsOnFirstUnderscore "abc" = false ∧
    (AppFilesManager.getAppPaths cfg0 "abc" =
       Except.error ("Invalid namespaced app id: " ++ "abc") ∧
     AppFilesManager.getDockerComposeYaml cfg0 fsAll "abc" =
       (Except.error ("Invalid namespaced app id: " ++ "abc"), []) ∧
     AppFilesManager.getDockerComposeJson cfg0 fsAll "abc" =
       (Except.error ("Invalid namespaced app id: " ++ "abc"), []) ∧
     AppFilesManager.writeDockerComposeYml cfg0 fsAll "abc" "cf" =
       (Except.error ("Invalid namespaced app id: " ++ "abc"), []) ∧
     AppFilesManager.deleteAppFolder cfg0 fsAll "abc" =
       (Except.error ("Invalid namespaced app id: " ++ "abc"), []) ∧
     AppFilesManager.deleteAppDataDir cfg0 fsAll "abc" =
       (Except.error ("Invalid namespaced app id: " ++ "abc"), []) ∧
     AppFilesManager.createAppDataDir cfg0 fsAll "abc" =
       (Except.error ("Invalid namespaced app id: " ++ "abc"), []) ∧
     AppFilesManager.setAppDataDirPermissions cfg0 "abc" =
       (Except.error ("Invalid namespaced app id: " ++ "abc"), []) ∧
     AppFilesManager.getAppEnv cfg0 fsAll "abc" =
       (Except.error ("Invalid namespaced app id: " ++ "abc"), []) ∧
     AppFilesManager.writeAppEnv cfg0 fsAll "abc" "ev" =
       (Except.error ("Invalid namespaced app id: " ++ "abc"), [])) :=
  ⟨by decide,
   c8_invalid_id_fails_before_fs cfg0 fsAll "abc" "cf" "ev" (by decide)⟩

/-- C9: whenever the path computation succeeds, `getDockerComposeYaml`
never throws; it returns the `docker-compose.arm64.yml` path exactly when
the configured architecture is `arm64` and that file exists, and the
`docker-compose.yml` path otherwise; and its content is `null` whenever
the chosen file does not exist or reading it fails. -/
theorem c9_docker_compose_yaml_selection (cfg : TipiConfig) (fs : Fs) (id : String)
    (paths : AppPaths) (hp : AppFilesManager.getAppPaths cfg id = Except.ok paths) :
    ∃ fc : AppFileContent,
      (AppFilesManager.getDockerComposeYaml cfg fs id).1 = Except.ok fc ∧
      (fc.path = pathJoin [paths.appInstalledDir, "docker-compose.arm64.yml"] ↔
        (cfg.architecture = "arm64" ∧
          fs.pathExists (pathJoin [paths.appInstalledDir, "docker-compose.arm64.yml"]) = true)) ∧
      (fc.path = pathJoin [paths.appInstalledDir, "docker-compose.arm64.yml"] ∨
        fc.path = pathJoin [paths.appInstalledDir, "docker-compose.yml"]) ∧
      (fs.pathExists fc.path = false → fc.content = none) ∧
      (∀ e, fs.readTextFile fc.path = Except.error e → fc.content = none) := by
  have hAB : pathJoin [paths.appInstalledDir, "docker-compose.arm64.yml"] ≠
      pathJoin [paths.appInstalledDir, "docker-compose.yml"] := by
    intro heq
    have hlen := congrArg String.length heq
    simp only [pathJoin] at hlen
    rw [String.length_append, String.length_append, String.length_append,
      String.length_append] at hlen
    have e1 : ("docker-compose.arm64.yml" : String).length = 24 := rfl
    have e2 : ("docker-compose.yml" : String).length = 18 := rfl
    omega
  by_cases harch : cfg.architecture = "arm64"
  · by_cases harm :
      fs.pathExists (pathJoin [paths.appInstalledDir, "docker-compose.arm64.yml"]) = true
    · rcases hrt :
        fs.readTextFile (pathJoin [paths.appInstalledDir, "docker-compose.arm64.yml"]) with e | c
      · refine ⟨⟨pathJoin [paths.appInstalledDir, "docker-compose.arm64.yml"], none⟩,
          ?_, ?_, ?_, ?_, ?_⟩
        · simp [AppFilesManager.getDockerComposeYaml, hp, harch, harm, hrt]
        · simp [harch, harm]
        · exact Or.inl rfl
        · intro _; rfl
        · intro _ _; rfl
      · refine ⟨⟨pathJoin [paths.appInstalledDir, "docker-compose.arm64.yml"], c⟩,
          ?_, ?_, ?_, ?_, ?_⟩
        · simp [AppFilesManager.getDockerComposeYaml, hp, harch, harm, hrt]
        · simp [harch, harm]
        · exact Or.inl rfl
        · intro hfalse; rw [harm] at hfalse; cases hfalse
        · intro e' he'; rw [hrt] at he'; cases he'
    · by_cases hbase :
        fs.pathExists (pathJoin [paths.appInstalledDir, "docker-compose.yml"]) = true
      · rcases hrt :
          fs.readTextFile (pathJoin [paths.appInstalledDir, "docker-compose.yml"]) with e | c
        · refine ⟨⟨pathJoin [paths.appInstalledDir, "docker-compose.yml"], none⟩,
            ?_, ?_, ?_, ?_, ?_⟩
          · simp [AppFilesManager.getDockerComposeYaml, hp, harch, harm, hbase, hrt]
          · exact iff_of_false (Ne.symm hAB) (by simp [harm])
          · exact Or.inr rfl
          · intro _; rfl
          · intro _ _; rfl
        · refine ⟨⟨pathJoin [paths.appInstalledDir, "docker-compose.yml"], c⟩,
            ?_, ?_, ?_, ?_, ?_⟩
          · simp [AppFilesManager.getDockerComposeYaml, hp, harch, harm, hbase, hrt]
          · exact iff_of_false (Ne.symm hAB) (by simp [harm])
          · exact Or.inr rfl
          · intro hfalse; rw [hbase] at hfalse; cases hfalse
          · intro e' he'; rw [hrt] at he'; cases he'
      · refine ⟨⟨pathJoin [paths.appInstalledDir, "docker-compose.yml"], none⟩,
          ?_, ?_, ?_, ?_, ?_⟩
        · simp [AppFilesManager.getDockerComposeYaml, hp, harch, harm, hbase]
        · exact iff_of_false (Ne.symm hAB) (by simp [harm])
        · exact Or.inr rfl
        · intro _; rfl
        · intro _ _; rfl
  · by_cases hbase :
      fs.pathExists (pathJoin [paths.appInstalledDir, "docker-compose.yml"]) = true
    · rcases hrt :
        fs.readTextFile (pathJoin [paths.appInstalledDir, "docker-compose.yml"]) with e | c
      · refine ⟨⟨pathJoin [paths.appInstalledDir, "docker-compose.yml"], none⟩,
          ?_, ?_, ?_, ?_, ?_⟩
        · simp [AppFilesManager.getDockerComposeYaml, hp, harch, hbase, hrt]
        · exact iff_of_false (Ne.symm hAB) (by simp [harch])
        · exact Or.inr rfl
        · intro _; rfl
        · intro _ _; rfl
      · refine ⟨⟨pathJoin [paths.appInstalledDir, "docker-compose.yml"], c⟩,
          ?_, ?_, ?_, ?_, ?_⟩
        · simp [AppFilesManager.getDockerComposeYaml, hp, harch, hbase, hrt]
        · exact iff_of_false (Ne.symm hAB) (by simp [harch])
        · exact Or.inr rfl
        · intro hfalse; rw [hbase] at hfalse; cases hfalse
        · intro e' he'; rw [hrt] at he'; cases he'
    · refine ⟨⟨pathJoin [paths.appInstalledDir, "docker-compose.yml"], none⟩,
        ?_, ?_, ?_, ?_, ?_⟩
      · simp [AppFilesManager.getDockerComposeYaml, hp, harch, hbase]
      · exact iff_of_false (Ne.symm hAB) (by simp [harch])
      · exact Or.inr rfl
      · intro _; rfl
      · intro _ _; rfl

/-- C9 (witness): the selection theorem applied to id `store_app` under
the arm64 configuration and the everything-exists filesystem. -/
theorem c9_docker_compose_yaml_selection_witness :
    AppFilesManager.getAppPaths cfgArm "store_app" =
      Except.ok { appDataDir := "/app-data/store/app",
                  appInstalledDir := "/data/apps/store/app" } ∧
    (∃ fc : AppFileContent,
      (AppFilesManager.getDockerComposeYaml cfgArm fsAll "store_app").1 = Except.ok fc ∧
      (fc.path = pathJoin ["/data/apps/store/app", "docker-compose.arm64.yml"] ↔
        (cfgArm.architecture = "arm64" ∧
          fsAll.pathExists (pathJoin ["/data/apps/store/app", "docker-compose.arm64.yml"]) = true)) ∧
      (fc.path = pathJoin ["/data/apps/store/app", "docker-compose.arm64.yml"] ∨
        fc.path = pathJoin ["/data/apps/store/app", "docker-compose.yml"]) ∧
      (fsAll.pathExists fc.path = false → fc.content = none) ∧
      (∀ e, fsAll.readTextFile fc.path = Except.error e → fc.content = none)) :=
  ⟨rfl,
   c9_docker_compose_yaml_selection cfgArm fsAll "store_app"
     { appDataDir := "/app-data/store/app", appInstalledDir := "/data/apps/store/app" } rfl⟩

/-- C10: when the per-app env file does not exist, `getAppEnv` returns the
empty string as content (not `null` and not an error), whereas `getUserEnv`
and `getUserComposeFile` return `null` content when their user-config file
does not exist. -/
theorem c10_missing_file_defaults (cfg : TipiConfig) (fs : Fs) (appId : String)
    (paths : AppPaths) (hp : AppFilesManager.getAppPaths cfg appId = Except.ok paths)
    (h1 : fs.pathExists (pathJoin [paths.appDataDir, "app.env"]) = false)
    (h2 : fs.pathExists
      (pathJoin [cfg.directories.dataDir, "user-config", appId, "app.env"]) = false)
    (h3 : fs.pathExists
      (pathJoin [cfg.directories.dataDir, "user-config", appId, "docker-compose.yml"]) = false) :
    (AppFilesManager.getAppEnv cfg fs appId).1 =
      Except.ok { path := pathJoin [paths.appDataDir, "app.env"], content := "" } ∧
    (AppFilesManager.getUserEnv cfg fs appId).1 =
      Except.ok { path := pathJoin [cfg.directories.dataDir, "user-config", appId, "app.env"],
                  content := none } ∧
    (AppFilesManager.getUserComposeFile cfg fs appId).1 =
      Except.ok
        { path := pathJoin [cfg.directories.dataDir, "user-config", appId, "docker-compose.yml"],
          content := none } := by
  refine ⟨?_, ?_, ?_⟩ <;>
    simp [AppFilesManager.getAppEnv, AppFilesManager.getUserEnv,
      AppFilesManager.getUserComposeFile, hp, h1, h2, h3]

/-- C10 (witness): the missing-file theorem applied to id `store_app`
under the amd64 configuration and the nothing-exists filesystem. -/
theorem c10_missing_file_defaults_witness :
    AppFilesManager.getAppPaths cfg0 "store_app" =
      Except.ok { appDataDir := "/app-data/store/app",
                  appInstalledDir := "/data/apps/store/app" } ∧
    fsNone.pathExists (pathJoin ["/app-data/store/app", "app.env"]) = false ∧
    ((AppFilesManager.getAppEnv cfg0 fsNone "store_app").1 =
       Except.ok { path := pathJoin ["/app-data/store/app", "app.env"], content := "" } ∧
     (AppFilesManager.getUserEnv cfg0 fsNone "store_app").1 =
       Except.ok { path := pathJoin ["/data", "user-config", "store_app", "app.env"],
                   content := none } ∧
     (AppFilesManager.getUserComposeFile cfg0 fsNone "store_app").1 =
       Except.ok
         { path := pathJoin ["/data", "user-config", "store_app", "docker-compose.yml"],
           content := none }) :=
  ⟨rfl, rfl,
   c10_missing_file_defaults cfg0 fsNone "store_app"
     { appDataDir := "/app-data/store/app", appInstalledDir := "/data/apps/store/app" }
     rfl rfl rfl rfl⟩

end Runtipi
